import Mathlib

/-!
# Verification of the Tezos delegation service (`main.go`)

A shallow embedding of the Go program in `main.go`: the SQLite-backed
checkpoint store (table `delegations`, primary key `(timestamp, delegator)`),
the read path `getDelegations` / `sendJSONResponse`, the watermark read
`getLastTimestamp`, the ingestion worker `fetchDelegations`, and the
shutdown sequence of `main`.

The store is modelled as a list of rows in insertion order.  SQLite TEXT
comparison under the default BINARY collation is lexicographic byte order,
which on the ASCII timestamps in play coincides with the `LinearOrder` on
`String`.  `ORDER BY timestamp DESC` is modelled as insertion sort by the
reversed order (sortedness and permutation are what SQL guarantees).
-/

/-- A row of the `delegations` table / the `Delegation` struct (main.go:27). -/
structure Delegation where
  timestamp : String
  amount : Int
  delegator : String
  level : Int
deriving DecidableEq, Repr

/-- A raw record decoded from the upstream JSON feed (main.go:97-102). -/
structure RawDelegation where
  timestamp : String
  amount : Int
  senderAddress : String
  level : Int
deriving DecidableEq, Repr

/-- Mapping a fetched raw record to a stored row (main.go:111-112). -/
def RawDelegation.toDelegation (f : RawDelegation) : Delegation :=
  ⟨f.timestamp, f.amount, f.senderAddress, f.level⟩

/-- The store: the rows of the `delegations` table, in insertion order. -/
abbrev Store := List Delegation

/-- Whether a row with primary key `(ts, dg)` is present (the uniqueness
check SQLite performs for the PRIMARY KEY of main.go:47). -/
def hasKey (s : Store) (ts dg : String) : Bool :=
  s.any fun r => r.timestamp == ts && r.delegator == dg

/-- Number of rows with primary key `(ts, dg)`. -/
def keyCount (s : Store) (ts dg : String) : Nat :=
  (s.filter fun r => r.timestamp == ts && r.delegator == dg).length

/-- `INSERT OR IGNORE INTO delegations ...` (main.go:111): insert the row if
no row with the same `(timestamp, delegator)` exists, otherwise do nothing;
a duplicate is not an error. -/
def upsert (s : Store) (r : Delegation) : Store :=
  if hasKey s r.timestamp r.delegator then s else s ++ [r]

/-- The default epoch constant returned when the store is empty or the
watermark read fails (main.go:129, main.go:134). -/
def defaultEpoch : String := "2023-08-23T00:00:00Z"

/-- Outcome of `row.Scan` after `db.QueryRow` (main.go:126-127): a value,
`sql.ErrNoRows`, or some other error. -/
inductive ScanResult (α : Type) where
  | ok : α → ScanResult α
  | noRows : ScanResult α
  | err : String → ScanResult α
deriving DecidableEq, Repr

/-- Maximum timestamp over the rows, in the string (BINARY-collation) order:
the value produced by `SELECT timestamp FROM delegations ORDER BY timestamp
DESC LIMIT 1` when the table is non-empty. -/
def maxTs : Store → Option String
  | [] => none
  | r :: rs =>
    match maxTs rs with
    | none => some r.timestamp
    | some t => some (if r.timestamp ≤ t then t else r.timestamp)

/-- The database engine's answer to the watermark query of main.go:126 on a
healthy store `s`. -/
def queryLastTimestamp (s : Store) : ScanResult String :=
  match maxTs s with
  | none => ScanResult.noRows
  | some t => ScanResult.ok t

/-- `getLastTimestamp` (main.go:124-136), over the scan outcome: the scanned
value on success, the default epoch on `sql.ErrNoRows`, and on any other
error a log line plus the default epoch.  Returns the timestamp together
with the log lines emitted. -/
def getLastTimestamp : ScanResult String → String × List String
  | ScanResult.ok t => (t, [])
  | ScanResult.noRows => (defaultEpoch, [])
  | ScanResult.err e => (defaultEpoch, ["Error getting last timestamp: " ++ e])

/-- SQLite's `strftime(\x27%Y\x27, ts)` (main.go:145) restricted to the
ISO-8601 strings this program stores: the 4-digit year for a string shaped
`YYYY-MM-DD...`, `NULL` (`none`) otherwise. -/
def sqliteYear (ts : String) : Option String :=
  let cs := ts.toList
  if cs.length ≥ 10 && (cs.take 4).all Char.isDigit && cs.getD 4 ' ' == '-'
      && ((cs.drop 5).take 2).all Char.isDigit && cs.getD 7 ' ' == '-'
      && ((cs.drop 8).take 2).all Char.isDigit
  then some (String.mk (cs.take 4)) else none

/-- `ORDER BY timestamp DESC`: the second row's timestamp is at most the
first's. -/
def tsGe (a b : Delegation) : Prop := b.timestamp ≤ a.timestamp

instance : DecidableRel tsGe := fun a b => by
  unfold tsGe; infer_instance

instance : IsTotal Delegation tsGe :=
  ⟨fun a b => (le_total b.timestamp a.timestamp).imp id id⟩

instance : IsTrans Delegation tsGe :=
  ⟨fun _ _ _ h h' => le_trans h' h⟩

/-- The rows returned by the SQL query of `getDelegations` (main.go:144-148):
filtered by `strftime(\x27%Y\x27, timestamp) = year` when `year` is
non-empty, unfiltered otherwise, ordered by `timestamp DESC`. -/
def queryRows (year : String) (s : Store) : List Delegation :=
  if year ≠ "" then
    List.insertionSort tsGe (s.filter fun r => sqliteYear r.timestamp == some year)
  else
    List.insertionSort tsGe s

/-!
## HTTP read path: `getDelegations` and `sendJSONResponse`
-/

/-- `r.URL.Query().Get(key)` (main.go:140): the first value for `key` in the
parsed query parameters, or the empty string when the key is absent. -/
def getParam (params : List (String × String)) (key : String) : String :=
  match params.find? fun p => p.1 == key with
  | some p => p.2
  | none => ""

/-- An HTTP response as observed by the client. -/
structure HttpResponse where
  status : Nat
  contentType : String
  body : String
deriving DecidableEq, Repr

/-- `http.Error(w, msg, status)`: plain-text response, message plus a
trailing newline. -/
def httpError (msg : String) (status : Nat) : HttpResponse :=
  ⟨status, "text/plain; charset=utf-8", msg ++ "\n"⟩

/-- Where the handler's database interaction can fail: the `db.Query` call
(main.go:150), a `rows.Scan` (main.go:159), the final `rows.Err()`
(main.go:166) — or none of them. -/
inductive DbOutcome where
  | ok
  | failQuery (msg : String)
  | failScan (msg : String)
  | failIter (msg : String)
deriving DecidableEq, Repr

/-- A Go slice of delegations: `none` is the nil slice (the zero value of
`var delegations []Delegation`, main.go:156), `some l` a non-nil slice with
elements `l`. -/
abbrev GoSlice := Option (List Delegation)

/-- `append(delegations, d)` (main.go:163): appending to a nil slice
allocates a non-nil one. -/
def goAppend (s : GoSlice) (d : Delegation) : GoSlice :=
  some (s.getD [] ++ [d])

/-- The slice built by the scan loop of main.go:157-164 from the rows the
query returned: nil when there are no rows. -/
def buildDelegations (rows : List Delegation) : GoSlice :=
  rows.foldl goAppend none

/-- `encoding/json` output for one `Delegation` (struct tags of main.go:28-31;
timestamps and addresses in play are plain ASCII needing no escaping). -/
def encodeDelegation (d : Delegation) : String :=
  "\x7b\"timestamp\":\"" ++ d.timestamp ++ "\",\"amount\":" ++ toString d.amount
    ++ ",\"delegator\":\"" ++ d.delegator ++ "\",\"level\":" ++ toString d.level ++ "\x7d"

/-- `encoding/json` output for a `[]Delegation` value: a nil slice encodes
as `null`, a non-nil slice as a JSON array. -/
def encodeGoSlice : GoSlice → String
  | none => "null"
  | some l => "[" ++ String.intercalate "," (l.map encodeDelegation) ++ "]"

/-- `sendJSONResponse` (main.go:175-181) applied to the payload
`map[string][]Delegation\x7b"data": delegations\x7d` of main.go:171:
sets the JSON content type, writes the status, and `Encoder.Encode` writes
the object followed by a newline. -/
def sendJSONResponse (status : Nat) (delegations : GoSlice) : HttpResponse :=
  ⟨status, "application/json", "\x7b\"data\":" ++ encodeGoSlice delegations ++ "\x7d\n"⟩

/-- `getDelegations` (main.go:139-172): extract the `year` parameter, run
the (optionally filtered) query, and either surface a database failure as a
500 or encode the rows under the `data` key.  `outcome` says where, if
anywhere, the database interaction fails. -/
def getDelegations (params : List (String × String)) (s : Store)
    (outcome : DbOutcome) : HttpResponse :=
  let year := getParam params "year"
  match outcome with
  | DbOutcome.failQuery msg =>
      httpError ("Database query error: " ++ msg) 500
  | DbOutcome.failScan msg =>
      httpError ("Database scan error: " ++ msg) 500
  | DbOutcome.failIter msg =>
      httpError ("Rows iteration error: " ++ msg) 500
  | DbOutcome.ok =>
      sendJSONResponse 200 (buildDelegations (queryRows year s))

/-!
## Ingestion worker: `fetchDelegations` (main.go:71-121)

The loop body is a `select` with a `default` branch: the stop channel is
sampled exactly once per iteration, at the top; once the `default` branch is
entered the whole fetch/upsert batch and its trailing sleep run with no
further look at the channel.  One iteration is `runCycle`; `runWorker` folds
it over a finite prefix of per-iteration environment inputs.
-/

/-- Outcome of one attempt of the remote fetch: `http.Get` failure
(main.go:81), body read failure (main.go:88), JSON decode failure
(main.go:103), or a decoded list of records. -/
inductive FetchResult where
  | netError (msg : String)
  | readError (msg : String)
  | decodeError (msg : String)
  | ok (records : List RawDelegation)
deriving DecidableEq, Repr

/-- The environment of one loop iteration: whether the stop channel is
closed when the `select` at main.go:74 samples it, what the fetch attempt
yields, and which individual `db.Exec` inserts fail (main.go:113). -/
structure CycleInput where
  stopClosed : Bool
  fetch : FetchResult
  insertFails : RawDelegation → Bool

/-- Observable steps of the worker, in program order. -/
inductive WorkerAction where
  | readWatermark (ts : String)
  | httpGet (url : String)
  | logError (msg : String)
  | insertAttempt (r : RawDelegation) (failed : Bool)
  | sleep (seconds : Nat)
  | stopMessage
deriving DecidableEq, Repr

/-- Did this iteration return (stop branch) or fall through to the next? -/
inductive CycleOutcome where
  | stopped
  | continued
deriving DecidableEq, Repr

/-- The fetch URL built at main.go:80 from the watermark. -/
def fetchUrl (wm : String) : String :=
  "https://api.tzkt.io/v1/operations/delegations?timestamp.gt=" ++ wm ++ "&limit=10000"

/-- The upsert loop of main.go:109-116: every fetched record is attempted in
order; a failing insert is logged and skipped, the loop moves on. -/
def processBatch (db : Store) (fails : RawDelegation → Bool) :
    List RawDelegation → Store × List WorkerAction
  | [] => (db, [])
  | f :: rest =>
    let db' := if fails f then db else upsert db f.toDelegation
    let (db'', acts) := processBatch db' fails rest
    (db'', WorkerAction.insertAttempt f (fails f) :: acts)

/-- One iteration of the `for`/`select` loop of main.go:73-120. -/
def runCycle (db : Store) (inp : CycleInput) :
    Store × CycleOutcome × List WorkerAction :=
  if inp.stopClosed then
    (db, CycleOutcome.stopped, [WorkerAction.stopMessage])
  else
    let wm := (getLastTimestamp (queryLastTimestamp db)).1
    let pre := [WorkerAction.readWatermark wm, WorkerAction.httpGet (fetchUrl wm)]
    match inp.fetch with
    | FetchResult.netError m =>
        (db, CycleOutcome.continued,
          pre ++ [WorkerAction.logError ("Error fetching data: " ++ m), WorkerAction.sleep 30])
    | FetchResult.readError m =>
        (db, CycleOutcome.continued,
          pre ++ [WorkerAction.logError ("Error reading body: " ++ m), WorkerAction.sleep 30])
    | FetchResult.decodeError m =>
        (db, CycleOutcome.continued,
          pre ++ [WorkerAction.logError ("Error unmarshaling: " ++ m), WorkerAction.sleep 30])
    | FetchResult.ok recs =>
        let (db', acts) := processBatch db inp.insertFails recs
        (db', CycleOutcome.continued, pre ++ acts ++ [WorkerAction.sleep 30])

/-- Worker status after consuming a prefix of iteration inputs. -/
inductive WorkerState where
  | running
  | stopped
deriving DecidableEq, Repr

/-- The worker run over a finite prefix of iteration inputs: iterate
`runCycle` until the stop branch fires or the prefix is exhausted (the real
loop runs forever; `WorkerState.running` means it is still cycling). -/
def runWorker (db : Store) : List CycleInput → Store × WorkerState × List WorkerAction
  | [] => (db, WorkerState.running, [])
  | inp :: rest =>
    match runCycle db inp with
    | (db', CycleOutcome.stopped, acts) => (db', WorkerState.stopped, acts)
    | (db', CycleOutcome.continued, acts) =>
      let (db'', st, acts') := runWorker db' rest
      (db'', st, acts ++ acts')

/-- A fetch attempt that failed (network, body read, or decode). -/
def FetchResult.isFailure : FetchResult → Bool
  | FetchResult.netError _ => true
  | FetchResult.readError _ => true
  | FetchResult.decodeError _ => true
  | FetchResult.ok _ => false

/-- The log message main.go prints for a failed fetch attempt. -/
def failureMsg : FetchResult → String
  | FetchResult.netError m => "Error fetching data: " ++ m
  | FetchResult.readError m => "Error reading body: " ++ m
  | FetchResult.decodeError m => "Error unmarshaling: " ++ m
  | FetchResult.ok _ => ""

/-!
## Shutdown sequence (main.go:195-226)

The lifecycle is modelled as a happens-before relation on the events of the
three goroutines involved — the main goroutine (`ListenAndServe`, then the
end of `main`), the signal goroutine (main.go:205-221), and the worker.  A
trace is any interleaving consistent with the code's synchronisation; the
process dies at `mainExited`, so nothing follows it.
-/

/-- The shutdown-relevant events. -/
inductive Ev where
  | sigReceived        -- the signal goroutine reads from channel c (main.go:208)
  | stopClosed         -- close(stopChan) (main.go:211)
  | shutdownCalled     -- srv.Shutdown(ctx) invoked (main.go:216)
  | listenReturned     -- ListenAndServe returns http.ErrServerClosed (main.go:224)
  | mainExited         -- main returns; the process exits (main.go:227)
  | shutdownReturned   -- srv.Shutdown returns
  | workerReturned     -- fetchDelegations observes stopChan and returns (main.go:77)
  | wgWaitDone         -- wg.Wait() returns (main.go:219)
deriving DecidableEq, Repr

/-- The ordering constraints the code imposes.  `(a, b)` means: if `b`
occurs, `a` has already occurred.
* the signal goroutine is sequential: signal → close → Shutdown → (Shutdown
  returns) → wg.Wait;
* `ListenAndServe` returns `ErrServerClosed` only once `Shutdown` has been
  called, and the main goroutine then runs to the end of `main`;
* the worker's `select` takes the stop branch only after `close(stopChan)`;
* `wg.Wait` returns only after the worker's deferred `wg.Done`, i.e. after
  the worker returned. -/
def happensBefore : List (Ev × Ev) :=
  [(Ev.sigReceived, Ev.stopClosed),
   (Ev.stopClosed, Ev.shutdownCalled),
   (Ev.shutdownCalled, Ev.shutdownReturned),
   (Ev.shutdownReturned, Ev.wgWaitDone),
   (Ev.workerReturned, Ev.wgWaitDone),
   (Ev.shutdownCalled, Ev.listenReturned),
   (Ev.listenReturned, Ev.mainExited),
   (Ev.stopClosed, Ev.workerReturned)]

/-- Index of the first occurrence of `e` in `t`. -/
def evIdx (t : List Ev) (e : Ev) : Nat := t.indexOf e

/-- A possible execution of the shutdown path: events are distinct, every
happens-before edge is respected, and no event follows `mainExited`
(process exit kills the remaining goroutines). -/
def ValidTrace (t : List Ev) : Bool :=
  t.Pairwise (· ≠ ·) &&
  (happensBefore.all fun p =>
    !(t.contains p.2) || (t.contains p.1 && decide (evIdx t p.1 < evIdx t p.2))) &&
  (!(t.contains Ev.mainExited) || decide (evIdx t Ev.mainExited = t.length - 1))

/-!
## Theorems
-/

lemma hasKey_append_self (s : Store) (r : Delegation) :
    hasKey (s ++ [r]) r.timestamp r.delegator = true := by
  simp [hasKey]

lemma hasKey_upsert (s : Store) (r : Delegation) :
    hasKey (upsert s r) r.timestamp r.delegator = true := by
  by_cases h : hasKey s r.timestamp r.delegator = true
  · simp [upsert, h]
  · simp [upsert, h, hasKey_append_self]

lemma upsert_of_hasKey {s : Store} {r : Delegation}
    (h : hasKey s r.timestamp r.delegator = true) : upsert s r = s := by
  simp [upsert, h]

lemma upsert_of_not_hasKey {s : Store} {r : Delegation}
    (h : hasKey s r.timestamp r.delegator = false) : upsert s r = s ++ [r] := by
  simp [upsert, h]

lemma keyCount_pos_of_hasKey {s : Store} {ts dg : String}
    (h : hasKey s ts dg = true) : 1 ≤ keyCount s ts dg := by
  unfold hasKey at h
  rw [List.any_eq_true] at h
  obtain ⟨r, hr, hp⟩ := h
  have hm : r ∈ s.filter fun r => r.timestamp == ts && r.delegator == dg :=
    List.mem_filter.2 ⟨hr, hp⟩
  exact List.length_pos_of_mem hm

lemma keyCount_zero_of_not_hasKey {s : Store} {ts dg : String}
    (h : hasKey s ts dg = false) : keyCount s ts dg = 0 := by
  unfold hasKey at h
  rw [List.any_eq_false] at h
  unfold keyCount
  rw [List.length_eq_zero, List.filter_eq_nil_iff]
  exact fun a ha => h a ha

lemma keyCount_append_self (s : Store) (r : Delegation) :
    keyCount (s ++ [r]) r.timestamp r.delegator
      = keyCount s r.timestamp r.delegator + 1 := by
  simp [keyCount, List.filter_append]

/-- C1: the `INSERT OR IGNORE` upsert is idempotent.  Under the primary-key
invariant (at most one row per `(timestamp, delegator)`): upserting a record
twice equals upserting it once; when a row with the key already exists the
store is left entirely unchanged (so the stored amount and level survive,
and no error is raised — `upsert` is total); and after upserting twice
exactly one row with that key is present. -/
theorem upsert_idempotent_c1 (s : Store) (r : Delegation)
    (hpk : keyCount s r.timestamp r.delegator ≤ 1) :
    upsert (upsert s r) r = upsert s r ∧
    (hasKey s r.timestamp r.delegator = true → upsert s r = s) ∧
    keyCount (upsert (upsert s r) r) r.timestamp r.delegator = 1 := by
  have h1 : upsert (upsert s r) r = upsert s r :=
    upsert_of_hasKey (hasKey_upsert s r)
  refine ⟨h1, fun h => upsert_of_hasKey h, ?_⟩
  rw [h1]
  by_cases h : hasKey s r.timestamp r.delegator = true
  · rw [upsert_of_hasKey h]
    exact le_antisymm hpk (keyCount_pos_of_hasKey h)
  · rw [upsert_of_not_hasKey (by simpa using h), keyCount_append_self,
      keyCount_zero_of_not_hasKey (by simpa using h)]

/-- C1 witness: a concrete store holding one row keyed
`("2023-01-01T00:00:00Z", "tz1Test")`; upserting a conflicting record with
the same key (different amount and level) changes nothing, and two upserts
leave exactly one row with the key. -/
theorem upsert_idempotent_c1_witness :
    upsert (upsert [Delegation.mk "2023-01-01T00:00:00Z" 1000 "tz1Test" 123456]
        (Delegation.mk "2023-01-01T00:00:00Z" 999 "tz1Test" 1))
        (Delegation.mk "2023-01-01T00:00:00Z" 999 "tz1Test" 1)
      = upsert [Delegation.mk "2023-01-01T00:00:00Z" 1000 "tz1Test" 123456]
          (Delegation.mk "2023-01-01T00:00:00Z" 999 "tz1Test" 1) ∧
    (hasKey [Delegation.mk "2023-01-01T00:00:00Z" 1000 "tz1Test" 123456]
        "2023-01-01T00:00:00Z" "tz1Test" = true →
      upsert [Delegation.mk "2023-01-01T00:00:00Z" 1000 "tz1Test" 123456]
          (Delegation.mk "2023-01-01T00:00:00Z" 999 "tz1Test" 1)
        = [Delegation.mk "2023-01-01T00:00:00Z" 1000 "tz1Test" 123456]) ∧
    keyCount (upsert (upsert [Delegation.mk "2023-01-01T00:00:00Z" 1000 "tz1Test" 123456]
        (Delegation.mk "2023-01-01T00:00:00Z" 999 "tz1Test" 1))
        (Delegation.mk "2023-01-01T00:00:00Z" 999 "tz1Test" 1))
      "2023-01-01T00:00:00Z" "tz1Test" = 1 :=
  upsert_idempotent_c1 [Delegation.mk "2023-01-01T00:00:00Z" 1000 "tz1Test" 123456]
    (Delegation.mk "2023-01-01T00:00:00Z" 999 "tz1Test" 1) (by decide)

lemma maxTs_eq_none {s : Store} : maxTs s = none ↔ s = [] := by
  cases s with
  | nil => simp [maxTs]
  | cons r rs =>
    simp only [maxTs]
    cases maxTs rs <;> simp

lemma maxTs_mem : ∀ {s : Store} {t : String},
    maxTs s = some t → t ∈ s.map Delegation.timestamp := by
  intro s
  induction s with
  | nil => intro t h; simp [maxTs] at h
  | cons r rs ih =>
    intro t h
    unfold maxTs at h
    cases hm : maxTs rs with
    | none =>
      rw [hm, Option.some.injEq] at h
      simp [← h]
    | some u =>
      rw [hm, Option.some.injEq] at h
      split at h
      · subst h
        exact List.mem_cons_of_mem _ (ih hm)
      · simp [← h]

lemma le_maxTs : ∀ {s : Store} {t : String},
    maxTs s = some t → ∀ r ∈ s, r.timestamp ≤ t := by
  intro s
  induction s with
  | nil => intro t _ r hr; simp at hr
  | cons a rs ih =>
    intro t h r hr
    unfold maxTs at h
    cases hm : maxTs rs with
    | none =>
      rw [hm, Option.some.injEq] at h
      have hrs : rs = [] := maxTs_eq_none.1 hm
      subst hrs
      rcases List.mem_cons.1 hr with rfl | hr'
      · exact le_of_eq h
      · simp at hr'
    | some u =>
      rw [hm, Option.some.injEq] at h
      split at h
      · rename_i hle
        subst h
        rcases List.mem_cons.1 hr with rfl | hr'
        · exact hle
        · exact ih hm r hr'
      · rename_i hle
        subst h
        rcases List.mem_cons.1 hr with rfl | hr'
        · exact le_refl _
        · exact le_trans (ih hm r hr') (le_of_not_le hle)

lemma maxTs_of_ne_nil {s : Store} (h : s ≠ []) : ∃ t, maxTs s = some t := by
  cases s with
  | nil => exact absurd rfl h
  | cons r rs =>
    unfold maxTs
    cases maxTs rs with
    | none => exact ⟨r.timestamp, rfl⟩
    | some u => exact ⟨if r.timestamp ≤ u then u else r.timestamp, rfl⟩

/-- C2: `getLastTimestamp` returns the maximum stored timestamp when the
store is non-empty; the fixed default epoch when the store is empty; and on
any other scan error it logs the error and returns the same default instead
of raising. -/
theorem getLastTimestamp_correct_c2 (s : Store) (e : String) :
    (s ≠ [] →
      (getLastTimestamp (queryLastTimestamp s)).1 ∈ s.map Delegation.timestamp ∧
      ∀ r ∈ s, r.timestamp ≤ (getLastTimestamp (queryLastTimestamp s)).1) ∧
    (s = [] → getLastTimestamp (queryLastTimestamp s) = (defaultEpoch, [])) ∧
    getLastTimestamp (ScanResult.err e)
      = (defaultEpoch, ["Error getting last timestamp: " ++ e]) := by
  refine ⟨fun hne => ?_, fun he => ?_, rfl⟩
  · obtain ⟨t, ht⟩ := maxTs_of_ne_nil hne
    have hq : queryLastTimestamp s = ScanResult.ok t := by
      unfold queryLastTimestamp; rw [ht]
    rw [hq]
    exact ⟨maxTs_mem ht, le_maxTs ht⟩
  · subst he; rfl

/-- C2 witness: on a two-row store the watermark is the larger timestamp;
on the empty store and on a scan error it is the default epoch. -/
theorem getLastTimestamp_correct_c2_witness :
    ((getLastTimestamp (queryLastTimestamp
        [Delegation.mk "2023-01-01T00:00:00Z" 5 "tz1A" 1,
         Delegation.mk "2023-09-09T00:00:00Z" 7 "tz1B" 2])).1
      ∈ [Delegation.mk "2023-01-01T00:00:00Z" 5 "tz1A" 1,
         Delegation.mk "2023-09-09T00:00:00Z" 7 "tz1B" 2].map Delegation.timestamp ∧
     ∀ r ∈ [Delegation.mk "2023-01-01T00:00:00Z" 5 "tz1A" 1,
            Delegation.mk "2023-09-09T00:00:00Z" 7 "tz1B" 2],
       r.timestamp ≤ (getLastTimestamp (queryLastTimestamp
        [Delegation.mk "2023-01-01T00:00:00Z" 5 "tz1A" 1,
         Delegation.mk "2023-09-09T00:00:00Z" 7 "tz1B" 2])).1) ∧
    getLastTimestamp (queryLastTimestamp ([] : Store)) = (defaultEpoch, []) ∧
    getLastTimestamp (ScanResult.err "disk I/O error")
      = (defaultEpoch, ["Error getting last timestamp: " ++ "disk I/O error"]) :=
  ⟨(getLastTimestamp_correct_c2
      [Delegation.mk "2023-01-01T00:00:00Z" 5 "tz1A" 1,
       Delegation.mk "2023-09-09T00:00:00Z" 7 "tz1B" 2] "disk I/O error").1
      (by decide),
   (getLastTimestamp_correct_c2 ([] : Store) "disk I/O error").2.1 rfl,
   (getLastTimestamp_correct_c2 ([] : Store) "disk I/O error").2.2⟩

/-- C3: with a present 4-digit year parameter `y`, the query returns exactly
the stored records whose timestamp's year component is `y` (a permutation of
that filtered subset — same records, same multiplicities), sorted by
timestamp descending; with no year parameter it returns all stored records
in the same descending order; and the handler's success path serves exactly
these query results. -/
theorem queryRows_correct_c3 (s : Store) (y : String) (hy : y.length = 4) :
    ((queryRows y s).Perm
        (s.filter fun r => sqliteYear r.timestamp == some y) ∧
      List.Sorted tsGe (queryRows y s)) ∧
    ((queryRows "" s).Perm s ∧ List.Sorted tsGe (queryRows "" s)) ∧
    (∀ params outcome, getDelegations params s outcome
        = match outcome with
          | DbOutcome.failQuery m => httpError ("Database query error: " ++ m) 500
          | DbOutcome.failScan m => httpError ("Database scan error: " ++ m) 500
          | DbOutcome.failIter m => httpError ("Rows iteration error: " ++ m) 500
          | DbOutcome.ok =>
              sendJSONResponse 200
                (buildDelegations (queryRows (getParam params "year") s))) := by
  have hne : y ≠ "" := by
    intro h
    rw [h] at hy
    simp at hy
  refine ⟨⟨?_, ?_⟩, ⟨?_, ?_⟩, ?_⟩
  · rw [queryRows, if_pos hne]
    exact List.perm_insertionSort tsGe _
  · rw [queryRows, if_pos hne]
    exact List.sorted_insertionSort tsGe _
  · rw [queryRows, if_neg (by simp)]
    exact List.perm_insertionSort tsGe _
  · rw [queryRows, if_neg (by simp)]
    exact List.sorted_insertionSort tsGe _
  · intro params outcome
    cases outcome <;> rfl

/-- The three-row store (one 2022 row, two 2023 rows) used by the C3
witness. -/
def demoStore3 : Store :=
  [Delegation.mk "2022-05-05T00:00:00Z" 1 "tz1A" 10,
   Delegation.mk "2023-01-01T00:00:00Z" 2 "tz1B" 20,
   Delegation.mk "2023-09-09T00:00:00Z" 3 "tz1C" 30]

/-- C3 witness: on a store with one 2022 row and two 2023 rows, the
year-2023 query is a sorted permutation of the 2023 subset, the
parameterless query a sorted permutation of the whole store, and the
handler's reply to `?year=2023` on a healthy database is the encoding of
those query results. -/
theorem queryRows_correct_c3_witness :
    ((queryRows "2023" demoStore3).Perm
        (demoStore3.filter fun r => sqliteYear r.timestamp == some "2023") ∧
      List.Sorted tsGe (queryRows "2023" demoStore3)) ∧
    ((queryRows "" demoStore3).Perm demoStore3 ∧
      List.Sorted tsGe (queryRows "" demoStore3)) ∧
    getDelegations [("year", "2023")] demoStore3 DbOutcome.ok
      = sendJSONResponse 200
          (buildDelegations (queryRows (getParam [("year", "2023")] "year")
            demoStore3)) :=
  ⟨(queryRows_correct_c3 demoStore3 "2023" (by decide)).1,
   (queryRows_correct_c3 demoStore3 "2023" (by decide)).2.1,
   (queryRows_correct_c3 demoStore3 "2023" (by decide)).2.2
     [("year", "2023")] DbOutcome.ok⟩

/-- C4 counterexample: on the empty store with a healthy database, the
handler answers status 200 but the body is `\x7b"data":null\x7d` — Go's
`encoding/json` encodes the never-appended nil slice as `null`, not as the
empty array the claim states. -/
theorem getDelegations_empty_counterexample_c4 :
    (getDelegations [] [] DbOutcome.ok).status = 200 ∧
    (getDelegations [] [] DbOutcome.ok).body = "\x7b\"data\":null\x7d\n" ∧
    (getDelegations [] [] DbOutcome.ok).body ≠ "\x7b\"data\":[]\x7d\n" ∧
    (getDelegations [] [] DbOutcome.ok).body ≠ "\x7b\"data\":[]\x7d" := by
  refine ⟨rfl, rfl, ?_, ?_⟩ <;> decide

/-- C4 as amended: when the store is empty and the storage read succeeds,
`GET /xtz/delegations` (with any query parameters) is answered with status
200, content type `application/json`, and body `\x7b"data":null\x7d` —
the `data` key maps to JSON `null` (the encoding of Go's nil slice), and
no error is reported. -/
theorem getDelegations_empty_null_c4 (params : List (String × String)) :
    getDelegations params [] DbOutcome.ok
      = ⟨200, "application/json", "\x7b\"data\":null\x7d\n"⟩ := by
  unfold getDelegations
  simp only []
  have hq : ∀ year, queryRows year ([] : Store) = [] := by
    intro year
    unfold queryRows
    split <;> simp
  rw [hq]
  rfl

/-- C8: every database failure in the read path — query execution, row
scan, row iteration — is answered with HTTP 500 and a descriptive plain-text
message naming the failure; the healthy path is the only one answered 200
with data. -/
theorem getDelegations_error_500_c8 (params : List (String × String))
    (s : Store) (m : String) :
    getDelegations params s (DbOutcome.failQuery m)
      = httpError ("Database query error: " ++ m) 500 ∧
    getDelegations params s (DbOutcome.failScan m)
      = httpError ("Database scan error: " ++ m) 500 ∧
    getDelegations params s (DbOutcome.failIter m)
      = httpError ("Rows iteration error: " ++ m) 500 ∧
    (getDelegations params s (DbOutcome.failQuery m)).status = 500 ∧
    (getDelegations params s (DbOutcome.failScan m)).status = 500 ∧
    (getDelegations params s (DbOutcome.failIter m)).status = 500 ∧
    (getDelegations params s DbOutcome.ok).status = 200 :=
  ⟨rfl, rfl, rfl, rfl, rfl, rfl, rfl⟩

lemma getParam_no_year (params : List (String × String))
    (h : ∀ p ∈ params, p.1 ≠ "year") : getParam params "year" = "" := by
  unfold getParam
  rw [List.find?_eq_none.2]
  intro p hp
  simpa using h p hp

/-- C10: a `year` query parameter that is present but empty is handled
exactly like an absent one — `Query().Get` yields `""` either way, the
handler takes the unfiltered branch, and the response is identical to the
response for the same request with every `year` parameter removed. -/
theorem emptyYear_param_c10 (rest : List (String × String)) (s : Store)
    (outcome : DbOutcome) :
    getDelegations (("year", "") :: rest) s outcome
      = getDelegations (rest.filter fun p => p.1 ≠ "year") s outcome ∧
    getParam (("year", "") :: rest) "year" = "" ∧
    queryRows "" s = List.insertionSort tsGe s := by
  have h1 : getParam (("year", "") :: rest) "year" = "" := by
    unfold getParam
    rw [List.find?_cons_of_pos _ (by simp)]
  have h2 : getParam (rest.filter fun p => p.1 ≠ "year") "year" = "" := by
    apply getParam_no_year
    intro p hp
    exact of_decide_eq_true (List.mem_filter.1 hp).2
  refine ⟨?_, h1, by rw [queryRows, if_neg (by simp)]⟩
  unfold getDelegations
  rw [h1, h2]

/-- The four observable steps of a cycle whose fetch attempt fails: read
the watermark, issue the fetch, log the error, sleep the 30-second backoff. -/
def failCycleTrace (db : Store) (i : CycleInput) : List WorkerAction :=
  let wm := (getLastTimestamp (queryLastTimestamp db)).1
  [WorkerAction.readWatermark wm, WorkerAction.httpGet (fetchUrl wm),
   WorkerAction.logError (failureMsg i.fetch), WorkerAction.sleep 30]

lemma runCycle_failure {db : Store} {i : CycleInput}
    (hs : i.stopClosed = false) (hf : i.fetch.isFailure = true) :
    runCycle db i = (db, CycleOutcome.continued, failCycleTrace db i) := by
  cases hfe : i.fetch with
  | ok recs => rw [hfe] at hf; simp [FetchResult.isFailure] at hf
  | netError m => simp [runCycle, hs, hfe, failCycleTrace, failureMsg]
  | readError m => simp [runCycle, hs, hfe, failCycleTrace, failureMsg]
  | decodeError m => simp [runCycle, hs, hfe, failCycleTrace, failureMsg]

lemma runCycle_stop {db : Store} {i : CycleInput} (hs : i.stopClosed = true) :
    runCycle db i = (db, CycleOutcome.stopped, [WorkerAction.stopMessage]) := by
  simp [runCycle, hs]

lemma runWorker_cons_stopped {db : Store} {i : CycleInput}
    {rest : List CycleInput}
    (h : (runCycle db i).2.1 = CycleOutcome.stopped) :
    runWorker db (i :: rest)
      = ((runCycle db i).1, WorkerState.stopped, (runCycle db i).2.2) := by
  rcases hc : runCycle db i with ⟨db', oc, acts⟩
  rw [hc] at h
  simp only at h
  subst h
  simp only [runWorker, hc]

lemma runWorker_cons_continued {db : Store} {i : CycleInput}
    {rest : List CycleInput}
    (h : (runCycle db i).2.1 = CycleOutcome.continued) :
    runWorker db (i :: rest)
      = ((runWorker (runCycle db i).1 rest).1,
         (runWorker (runCycle db i).1 rest).2.1,
         (runCycle db i).2.2 ++ (runWorker (runCycle db i).1 rest).2.2) := by
  rcases hc : runCycle db i with ⟨db', oc, acts⟩
  rw [hc] at h
  simp only at h
  subst h
  simp only [runWorker, hc]

lemma runWorker_failures : ∀ (fails : List CycleInput) (db : Store),
    (∀ i ∈ fails, i.stopClosed = false ∧ i.fetch.isFailure = true) →
    runWorker db fails
      = (db, WorkerState.running,
         fails.foldr (fun i acc => failCycleTrace db i ++ acc) []) := by
  intro fails
  induction fails with
  | nil => intro db h; rfl
  | cons i rest ih =>
    intro db h
    have hi := h i (List.mem_cons_self i rest)
    have hrest := ih db fun j hj => h j (List.mem_cons_of_mem i hj)
    have hc := @runCycle_failure db i hi.1 hi.2
    rw [runWorker_cons_continued (by rw [hc]), hc, hrest]
    rfl

lemma processBatch_spec (fails : RawDelegation → Bool) :
    ∀ (recs : List RawDelegation) (db : Store),
    (processBatch db fails recs).2
      = recs.map (fun f => WorkerAction.insertAttempt f (fails f)) ∧
    (processBatch db fails recs).1
      = recs.foldl (fun d f => if fails f then d else upsert d f.toDelegation) db := by
  intro recs
  induction recs with
  | nil => intro db; exact ⟨rfl, rfl⟩
  | cons f rest ih =>
    intro db
    rcases hpb : processBatch (if fails f then db else upsert db f.toDelegation) fails rest
      with ⟨db2, acts⟩
    have heq : processBatch db fails (f :: rest)
        = (db2, WorkerAction.insertAttempt f (fails f) :: acts) := by
      simp only [processBatch, hpb]
    have hih := ih (if fails f then db else upsert db f.toDelegation)
    rw [hpb] at hih
    have h1 : acts = rest.map (fun f => WorkerAction.insertAttempt f (fails f)) := hih.1
    have h2 : db2 = rest.foldl (fun d f => if fails f then d else upsert d f.toDelegation)
        (if fails f then db else upsert db f.toDelegation) := hih.2
    rw [heq]
    exact ⟨by simp [h1], by simp [h2]⟩

lemma runWorker_append : ∀ (l1 : List CycleInput) (db : Store) (l2 : List CycleInput),
    (runWorker db l1).2.1 = WorkerState.running →
    runWorker db (l1 ++ l2)
      = ((runWorker (runWorker db l1).1 l2).1,
         (runWorker (runWorker db l1).1 l2).2.1,
         (runWorker db l1).2.2 ++ (runWorker (runWorker db l1).1 l2).2.2) := by
  intro l1
  induction l1 with
  | nil =>
    intro db l2 h
    simp [runWorker]
  | cons i rest ih =>
    intro db l2 h
    cases hoc : (runCycle db i).2.1 with
    | stopped =>
      rw [runWorker_cons_stopped hoc] at h
      simp at h
    | continued =>
      rw [runWorker_cons_continued hoc] at h
      have happ := ih (runCycle db i).1 l2 h
      rw [List.cons_append, runWorker_cons_continued hoc, runWorker_cons_continued hoc, happ]
      simp

lemma runCycle_ok {db : Store} {i : CycleInput} {recs : List RawDelegation}
    (hs : i.stopClosed = false) (hr : i.fetch = FetchResult.ok recs) :
    runCycle db i
      = ((processBatch db i.insertFails recs).1, CycleOutcome.continued,
         [WorkerAction.readWatermark (getLastTimestamp (queryLastTimestamp db)).1,
          WorkerAction.httpGet (fetchUrl (getLastTimestamp (queryLastTimestamp db)).1)]
           ++ (processBatch db i.insertFails recs).2 ++ [WorkerAction.sleep 30]) := by
  rcases hpb : processBatch db i.insertFails recs with ⟨db2, acts⟩
  simp [runCycle, hs, hr, hpb]

lemma runWorker_single_ok {db : Store} {i : CycleInput} {recs : List RawDelegation}
    (hs : i.stopClosed = false) (hr : i.fetch = FetchResult.ok recs) :
    runWorker db [i]
      = ((processBatch db i.insertFails recs).1, WorkerState.running,
         [WorkerAction.readWatermark (getLastTimestamp (queryLastTimestamp db)).1,
          WorkerAction.httpGet (fetchUrl (getLastTimestamp (queryLastTimestamp db)).1)]
           ++ (processBatch db i.insertFails recs).2 ++ [WorkerAction.sleep 30]) := by
  rw [runWorker_cons_continued (by rw [runCycle_ok hs hr]), runCycle_ok hs hr]
  simp [runWorker]

/-- C5: after any number of consecutive fetch/read/decode failures the
worker is still running and the store — hence the watermark — is unchanged;
the trace of those cycles is exactly, per failure: re-read the watermark,
fetch, log the error, sleep the 30-second backoff; and appending one
successful cycle, the worker upserts the fetched batch and is still
running (normal polling resumed). -/
theorem worker_resilient_c5 (db : Store) (fails : List CycleInput)
    (hf : ∀ i ∈ fails, i.stopClosed = false ∧ i.fetch.isFailure = true)
    (succ : CycleInput) (recs : List RawDelegation)
    (hs : succ.stopClosed = false) (hrec : succ.fetch = FetchResult.ok recs) :
    (runWorker db fails).1 = db ∧
    (runWorker db fails).2.1 = WorkerState.running ∧
    (getLastTimestamp (queryLastTimestamp (runWorker db fails).1)).1
      = (getLastTimestamp (queryLastTimestamp db)).1 ∧
    (runWorker db fails).2.2
      = fails.foldr (fun i acc => failCycleTrace db i ++ acc) [] ∧
    (runWorker db (fails ++ [succ])).1
      = recs.foldl (fun d f => if succ.insertFails f then d
          else upsert d f.toDelegation) db ∧
    (runWorker db (fails ++ [succ])).2.1 = WorkerState.running := by
  have hw := runWorker_failures fails db hf
  have happ := runWorker_append fails db [succ] (by rw [hw])
  have hpb := processBatch_spec succ.insertFails recs db
  have h5 : (runWorker db (fails ++ [succ])).1
      = (processBatch db succ.insertFails recs).1 := by
    rw [happ, hw]
    show (runWorker db [succ]).1 = _
    rw [runWorker_single_ok hs hrec]
  have h6 : (runWorker db (fails ++ [succ])).2.1 = WorkerState.running := by
    rw [happ, hw]
    show (runWorker db [succ]).2.1 = _
    rw [runWorker_single_ok hs hrec]
  exact ⟨by rw [hw], by rw [hw], by rw [hw], by rw [hw], by rw [h5, hpb.2], h6⟩

lemma runCycle_continued {db : Store} {i : CycleInput} (hs : i.stopClosed = false) :
    (runCycle db i).2.1 = CycleOutcome.continued := by
  cases hr : i.fetch with
  | ok recs => rw [runCycle_ok hs hr]
  | netError m => rw [runCycle_failure hs (by rw [hr]; rfl)]
  | readError m => rw [runCycle_failure hs (by rw [hr]; rfl)]
  | decodeError m => rw [runCycle_failure hs (by rw [hr]; rfl)]

lemma runWorker_running_of_no_stop : ∀ (pre : List CycleInput) (db : Store),
    (∀ i ∈ pre, i.stopClosed = false) →
    (runWorker db pre).2.1 = WorkerState.running := by
  intro pre
  induction pre with
  | nil => intro db _; rfl
  | cons i rest ih =>
    intro db h
    have hc := @runCycle_continued db i (h i (List.mem_cons_self i rest))
    rw [runWorker_cons_continued hc]
    exact ih _ fun j hj => h j (List.mem_cons_of_mem i hj)

/-- C6: the worker samples the stop signal only at the top of a cycle.  A
cycle that starts with the stop channel closed does nothing but print the
stop message and return; a cycle that starts with it open always runs to
completion, its trace ending with its trailing sleep; and a run whose
cycles all start un-stopped followed by one stopped check executes every
earlier batch in full and only then transitions to STOPPED. -/
theorem worker_stop_at_cycle_top_c6 (db : Store) (pre : List CycleInput)
    (stopInp : CycleInput) (hpre : ∀ i ∈ pre, i.stopClosed = false)
    (hstop : stopInp.stopClosed = true) :
    (∀ (d : Store) (i : CycleInput), i.stopClosed = true →
      runCycle d i = (d, CycleOutcome.stopped, [WorkerAction.stopMessage])) ∧
    (∀ (d : Store) (i : CycleInput), i.stopClosed = false →
      (runCycle d i).2.1 = CycleOutcome.continued ∧
      ∃ tr, (runCycle d i).2.2 = tr ++ [WorkerAction.sleep 30]) ∧
    runWorker db (pre ++ [stopInp])
      = ((runWorker db pre).1, WorkerState.stopped,
         (runWorker db pre).2.2 ++ [WorkerAction.stopMessage]) := by
  refine ⟨fun d i hi => runCycle_stop hi, fun d i hi => ⟨runCycle_continued hi, ?_⟩, ?_⟩
  · cases hr : i.fetch with
    | ok recs =>
      rw [runCycle_ok hi hr]
      exact ⟨_, by rw [List.append_assoc]⟩
    | netError m =>
      rw [runCycle_failure hi (by rw [hr]; rfl)]
      exact ⟨[WorkerAction.readWatermark (getLastTimestamp (queryLastTimestamp d)).1,
        WorkerAction.httpGet (fetchUrl (getLastTimestamp (queryLastTimestamp d)).1),
        WorkerAction.logError (failureMsg i.fetch)], rfl⟩
    | readError m =>
      rw [runCycle_failure hi (by rw [hr]; rfl)]
      exact ⟨[WorkerAction.readWatermark (getLastTimestamp (queryLastTimestamp d)).1,
        WorkerAction.httpGet (fetchUrl (getLastTimestamp (queryLastTimestamp d)).1),
        WorkerAction.logError (failureMsg i.fetch)], rfl⟩
    | decodeError m =>
      rw [runCycle_failure hi (by rw [hr]; rfl)]
      exact ⟨[WorkerAction.readWatermark (getLastTimestamp (queryLastTimestamp d)).1,
        WorkerAction.httpGet (fetchUrl (getLastTimestamp (queryLastTimestamp d)).1),
        WorkerAction.logError (failureMsg i.fetch)], rfl⟩
  · have hrun := runWorker_running_of_no_stop pre db hpre
    have happ := runWorker_append pre db [stopInp] hrun
    have hone : runWorker (runWorker db pre).1 [stopInp]
        = ((runWorker db pre).1, WorkerState.stopped, [WorkerAction.stopMessage]) := by
      rw [runWorker_cons_stopped (by rw [runCycle_stop hstop]), runCycle_stop hstop]
    rw [happ, hone]

/-- C7: within one successful cycle every fetched record is attempted
independently — the attempt trace covers the whole batch regardless of
which individual inserts fail, a failing insert leaves the store step
unchanged while the others are upserted, and the cycle still ends in the
polling sleep with the worker continuing. -/
theorem batch_records_independent_c7 (db : Store) (recs : List RawDelegation)
    (i : CycleInput) (hs : i.stopClosed = false)
    (hok : i.fetch = FetchResult.ok recs) :
    (processBatch db i.insertFails recs).2
      = recs.map (fun f => WorkerAction.insertAttempt f (i.insertFails f)) ∧
    (processBatch db i.insertFails recs).1
      = recs.foldl (fun d f => if i.insertFails f then d
          else upsert d f.toDelegation) db ∧
    (runCycle db i).2.1 = CycleOutcome.continued ∧
    (runCycle db i).2.2
      = [WorkerAction.readWatermark (getLastTimestamp (queryLastTimestamp db)).1,
         WorkerAction.httpGet (fetchUrl (getLastTimestamp (queryLastTimestamp db)).1)]
        ++ (processBatch db i.insertFails recs).2 ++ [WorkerAction.sleep 30] := by
  have hpb := processBatch_spec i.insertFails recs db
  refine ⟨hpb.1, hpb.2, ?_, ?_⟩
  · rw [runCycle_ok hs hok]
  · rw [runCycle_ok hs hok]

/-- A fetch cycle failing at the HTTP transport. -/
def demoFailNet : CycleInput :=
  CycleInput.mk false (FetchResult.netError "timeout") (fun _ => false)

/-- A fetch cycle failing at JSON decoding. -/
def demoFailDecode : CycleInput :=
  CycleInput.mk false (FetchResult.decodeError "bad json") (fun _ => false)

/-- One raw upstream record. -/
def demoRaw : RawDelegation := RawDelegation.mk "2023-09-01T00:00:00Z" 42 "tz1W" 777

/-- A second raw upstream record. -/
def demoRaw2 : RawDelegation := RawDelegation.mk "2023-09-02T00:00:00Z" 7 "tz1X" 778

/-- A successful fetch cycle returning one record, all inserts succeeding. -/
def demoSucc : CycleInput :=
  CycleInput.mk false (FetchResult.ok [demoRaw]) (fun _ => false)

/-- A cycle beginning with the stop channel closed. -/
def demoStop : CycleInput :=
  CycleInput.mk true (FetchResult.ok []) (fun _ => false)

/-- C5 witness: two consecutive failures (network, then decode) on the
empty store leave it empty with the worker running, tracing log-and-backoff
twice; a subsequent successful cycle ingests the fetched record. -/
theorem worker_resilient_c5_witness :
    (runWorker [] [demoFailNet, demoFailDecode]).1 = [] ∧
    (runWorker [] [demoFailNet, demoFailDecode]).2.1 = WorkerState.running ∧
    (getLastTimestamp (queryLastTimestamp (runWorker [] [demoFailNet, demoFailDecode]).1)).1
      = (getLastTimestamp (queryLastTimestamp [])).1 ∧
    (runWorker [] [demoFailNet, demoFailDecode]).2.2
      = [demoFailNet, demoFailDecode].foldr
          (fun i acc => failCycleTrace [] i ++ acc) [] ∧
    (runWorker [] ([demoFailNet, demoFailDecode] ++ [demoSucc])).1
      = [demoRaw].foldl (fun d f => if demoSucc.insertFails f then d
          else upsert d f.toDelegation) [] ∧
    (runWorker [] ([demoFailNet, demoFailDecode] ++ [demoSucc])).2.1
      = WorkerState.running :=
  worker_resilient_c5 [] [demoFailNet, demoFailDecode]
    (by
      intro i hi
      rcases List.mem_cons.1 hi with rfl | hi2
      · exact ⟨rfl, rfl⟩
      · rcases List.mem_cons.1 hi2 with rfl | hi3
        · exact ⟨rfl, rfl⟩
        · cases hi3)
    demoSucc [demoRaw] rfl rfl

/-- C6 witness: one failure cycle followed by a stopped check — the
stopped check only prints the stop message, the failure cycle runs to
completion with its trace ending in its backoff sleep, and the worker is
STOPPED only after that full cycle. -/
theorem worker_stop_at_cycle_top_c6_witness :
    runCycle ([] : Store) demoStop
      = ([], CycleOutcome.stopped, [WorkerAction.stopMessage]) ∧
    (runCycle ([] : Store) demoFailNet).2.1 = CycleOutcome.continued ∧
    (runCycle ([] : Store) demoFailNet).2.2
      = [WorkerAction.readWatermark (getLastTimestamp (queryLastTimestamp [])).1,
         WorkerAction.httpGet (fetchUrl (getLastTimestamp (queryLastTimestamp [])).1),
         WorkerAction.logError (failureMsg demoFailNet.fetch)]
        ++ [WorkerAction.sleep 30] ∧
    runWorker [] ([demoFailNet] ++ [demoStop])
      = ((runWorker [] [demoFailNet]).1, WorkerState.stopped,
         (runWorker [] [demoFailNet]).2.2 ++ [WorkerAction.stopMessage]) :=
  ⟨(worker_stop_at_cycle_top_c6 [] [demoFailNet] demoStop
      (by
        intro i hi
        rcases List.mem_cons.1 hi with rfl | hi2
        · rfl
        · cases hi2)
      rfl).1 [] demoStop rfl,
   (worker_stop_at_cycle_top_c6 [] [demoFailNet] demoStop
      (by
        intro i hi
        rcases List.mem_cons.1 hi with rfl | hi2
        · rfl
        · cases hi2)
      rfl).2.1 [] demoFailNet rfl |>.1,
   by rfl,
   (worker_stop_at_cycle_top_c6 [] [demoFailNet] demoStop
      (by
        intro i hi
        rcases List.mem_cons.1 hi with rfl | hi2
        · rfl
        · cases hi2)
      rfl).2.2⟩

/-- Insert-failure pattern for the C7 witness: the first record's insert
fails, the second succeeds. -/
def demoInsFails (f : RawDelegation) : Bool := f == demoRaw

/-- A successful fetch cycle of two records whose first insert fails. -/
def demoSucc2 : CycleInput :=
  CycleInput.mk false (FetchResult.ok [demoRaw, demoRaw2]) demoInsFails

/-- C7 witness: of two fetched records the first insert fails and the
second still goes through — both attempts appear in the trace, only the
second record lands in the store, and the cycle continues into its polling
sleep. -/
theorem batch_records_independent_c7_witness :
    (processBatch [] demoSucc2.insertFails [demoRaw, demoRaw2]).2
      = [demoRaw, demoRaw2].map
          (fun f => WorkerAction.insertAttempt f (demoSucc2.insertFails f)) ∧
    (processBatch [] demoSucc2.insertFails [demoRaw, demoRaw2]).1
      = [demoRaw, demoRaw2].foldl
          (fun d f => if demoSucc2.insertFails f then d
            else upsert d f.toDelegation) [] ∧
    (runCycle [] demoSucc2).2.1 = CycleOutcome.continued ∧
    (runCycle [] demoSucc2).2.2
      = [WorkerAction.readWatermark (getLastTimestamp (queryLastTimestamp [])).1,
         WorkerAction.httpGet (fetchUrl (getLastTimestamp (queryLastTimestamp [])).1)]
        ++ (processBatch [] demoSucc2.insertFails [demoRaw, demoRaw2]).2
        ++ [WorkerAction.sleep 30] :=
  batch_records_independent_c7 [] [demoRaw, demoRaw2] demoSucc2 rfl rfl

/-- The interleaving in which the signal is handled, `Shutdown` begins (so
`ListenAndServe` returns `ErrServerClosed`), and `main` returns — all
before the worker has observed the stop signal or `wg.Wait` has finished. -/
def shutdownRaceTrace : List Ev :=
  [Ev.sigReceived, Ev.stopClosed, Ev.shutdownCalled, Ev.listenReturned, Ev.mainExited]

/-- C9: the shutdown sequence admits a valid execution in which the process
exits while the worker has not yet observed the stop signal and the
`wg.Wait` barrier was never satisfied: `main` never joins the signal
goroutine that waits on the barrier, so `mainExited` is unordered with
respect to `wgWaitDone`. -/
theorem shutdown_no_barrier_c9 :
    ValidTrace shutdownRaceTrace = true ∧
    Ev.mainExited ∈ shutdownRaceTrace ∧
    Ev.workerReturned ∉ shutdownRaceTrace ∧
    Ev.wgWaitDone ∉ shutdownRaceTrace := by
  refine ⟨?_, ?_, ?_, ?_⟩ <;> decide
